import Mathlib

set_option linter.all false

/-! Shallow embedding of the ESP32-CAM Bluetooth streaming firmware in
src/glasses/src/main.cpp: Arduino string primitives, the command
processor, the per-cycle main loop, and the process-level state
machine, together with theorems about the framing and command
protocol. -/

/-- C `isspace`: the space character (code 32) or a control character
with code 9 through 13 (tab, newline, vertical tab, form feed,
carriage return). -/
def isSpaceC (c : Char) : Bool := c.toNat = 32 || (9 ≤ c.toNat && c.toNat ≤ 13)

/-- ASCII decimal digit test (codes 48 through 57), as used by `atol`. -/
def isDigitC (c : Char) : Bool := 48 ≤ c.toNat && c.toNat ≤ 57

/-- Numeric value of an ASCII digit character. -/
def digitVal (c : Char) : Nat := c.toNat - 48

/-- Skip leading whitespace, as `atol` does before reading the number. -/
def skipSpaces : List Char → List Char
  | [] => []
  | c :: cs => if isSpaceC c then skipSpaces cs else c :: cs

/-- Value of a digit string read left to right. -/
def digitsToNat (ds : List Char) : Nat := ds.foldl (fun a c => a * 10 + digitVal c) 0

/-- Core of C `atol` after whitespace skipping: an optional sign
(code 45 is the minus sign, 43 the plus sign) followed by the longest
run of leading digits; a body with no leading digits yields 0. -/
def atolCore (cs : List Char) : Int :=
  match cs with
  | [] => 0
  | c :: rest =>
    if c.toNat = 45 then - (digitsToNat (rest.takeWhile isDigitC) : Int)
    else if c.toNat = 43 then (digitsToNat (rest.takeWhile isDigitC) : Int)
    else (digitsToNat (cs.takeWhile isDigitC) : Int)

/-- C `atol`, the engine of Arduino `String::toInt` as called on
`command.substring(4)` in `processCommands`. -/
def atol (cs : List Char) : Int := atolCore (skipSpaces cs)

/-- Arduino `String::trim`: strip leading and trailing `isspace`
characters, as `command.trim()` does in `processCommands`. -/
def trimC (s : List Char) : List Char :=
  ((s.dropWhile isSpaceC).reverse.dropWhile isSpaceC).reverse

/-- Arduino `String::startsWith`, character by character and
case-sensitive. -/
def startsWithC : List Char → List Char → Bool
  | [], _ => true
  | _ :: _, [] => false
  | p :: ps, c :: cs => (p == c) && startsWithC ps cs

/-- The Arduino `constrain` macro: `(x<lo)?lo:((x>hi)?hi:x)`. -/
def constrain (x lo hi : Int) : Int := if x < lo then lo else if x > hi then hi else x

/-- Decimal rendering of an integer as Arduino `print(int)` emits it. -/
def intRepr (n : Int) : List Char :=
  if n < 0 then '-' :: Nat.toDigits 10 n.natAbs else Nat.toDigits 10 n.natAbs

/-- The line terminator appended by Arduino `println`. -/
def crlf : List Char := ['\r', '\n']

/-- The recognized command tag checked by `command.startsWith("S14:")`. -/
def cmdTag : List Char := "S14:".toList

/-- The text sent by `SerialBT.print("Servo set to ")`. -/
def ackHead : List Char := "Servo set to ".toList

/-- One write call on the `SerialBT` transport: a textual
`print`/`println`, or a raw `write(buf, len)` of bytes. -/
inductive BTWrite
  | text (s : List Char)
  | raw (bs : List Nat)
deriving DecidableEq

/-- One diagnostic event on the local `Serial` port, one constructor
per message the firmware prints, carrying the data interpolated into
the message. -/
inductive LogEvent
  | macReport
  | cameraInitFailed (err : Nat)
  | servoInitialized
  | btInitError
  | btWaiting
  | noClient
  | servoSet (angle : Int)
  | unknownCommand (line : List Char)
  | captureFailed
deriving DecidableEq

/-- The mutable state of the firmware while looping: the global
`currentServoAngle`, the physical servo position last written via
`myServo.write` (none before `attach`), the queue of complete inbound
lines buffered by `SerialBT`, the sequence of writes made on the
transport, the local serial log, and the sequence of `delay` calls. -/
structure FirmwareState where
  currentServoAngle : Int
  servoPos : Option Int
  inbound : List (List Char)
  btOut : List BTWrite
  serialLog : List LogEvent
  delays : List Nat
deriving DecidableEq

/-- `processCommands` from main.cpp: if a line is available
(`SerialBT.available()` — an `if`, not a loop), read one line, trim
it; a line starting with `"S14:"` has its tail parsed by `toInt`,
constrained to `[0,180]`, written to the servo, stored in
`currentServoAngle`, logged, and acknowledged on the transport; any
other line is only logged. -/
def processCommands (s : FirmwareState) : FirmwareState :=
  match s.inbound with
  | [] => s
  | line :: rest =>
    let command := trimC line
    if startsWithC cmdTag command then
      let angle := constrain (atol (command.drop 4)) 0 180
      { s with inbound := rest
             , servoPos := some angle
             , currentServoAngle := angle
             , serialLog := s.serialLog ++ [.servoSet angle]
             , btOut := s.btOut ++ [.text ackHead, .text (intRepr angle ++ crlf)] }
    else
      { s with inbound := rest
             , serialLog := s.serialLog ++ [.unknownCommand command] }

/-- The environment of one `loop` iteration: whether
`SerialBT.hasClient()` reads true, the complete lines newly arrived in
the Bluetooth buffer since the previous iteration, and the result of
`esp_camera_fb_get` (`none` models a failed capture, `some bs` a frame
whose JPEG payload is the byte list `bs`). -/
structure CycleEnv where
  hasClient : Bool
  arrivals : List (List Char)
  capture : Option (List Nat)
deriving DecidableEq

/-- Little-endian byte encoding of a 32-bit unsigned integer, as
produced by `SerialBT.write((uint8_t*)&frameSize, sizeof(frameSize))`
on the little-endian ESP32. -/
def le32 (n : Nat) : List Nat :=
  [n % 256, n / 256 % 256, n / 65536 % 256, n / 16777216 % 256]

/-- Decode the first 4 bytes of a byte sequence as a little-endian
32-bit unsigned integer. -/
def decodeLe32 (bs : List Nat) : Nat :=
  match bs with
  | b0 :: b1 :: b2 :: b3 :: _ => b0 + b1 * 256 + b2 * 65536 + b3 * 16777216
  | _ => 0

/-- One iteration of `loop` from main.cpp: newly arrived lines join
the buffer; without a client the iteration only logs, delays 500 ms
and returns; otherwise `processCommands` runs first, then one capture
is attempted — on failure log and delay 1000 ms, on success write the
4-byte little-endian length header then the payload bytes, then delay
1000 ms. -/
def loopCycle (s : FirmwareState) (env : CycleEnv) : FirmwareState :=
  let s0 := { s with inbound := s.inbound ++ env.arrivals }
  if env.hasClient then
    let s1 := processCommands s0
    match env.capture with
    | none =>
      { s1 with serialLog := s1.serialLog ++ [.captureFailed]
              , delays := s1.delays ++ [1000] }
    | some fb =>
      let frameSize := fb.length % 2 ^ 32
      { s1 with btOut := s1.btOut ++ [.raw (le32 frameSize), .raw (fb.take frameSize)]
              , delays := s1.delays ++ [1000] }
  else
    { s0 with serialLog := s0.serialLog ++ [.noClient]
            , delays := s0.delays ++ [500] }

/-- The top-level process mode: `running` executes `loop` repeatedly;
`halted` is the terminal state entered when `esp_camera_init` fails
(the `while (true) delay(1000);` in `initCamera`), modelled as a state
with no outgoing transitions. -/
inductive ProcMode
  | halted
  | running
deriving DecidableEq

/-- The whole process: its mode and the firmware state. -/
structure ProcState where
  mode : ProcMode
  fw : FirmwareState
deriving DecidableEq

/-- The firmware state at the top of `setup`: `currentServoAngle` is
initialized to 90 at its declaration, the servo is not yet attached,
and all buffers and logs are empty. -/
def initialFw : FirmwareState :=
  { currentServoAngle := 90, servoPos := none, inbound := [], btOut := []
  , serialLog := [], delays := [] }

/-- `setup` from main.cpp: `initCamera` first — a failure (some error
code) prints the diagnostic and halts the process permanently before
the servo or Bluetooth are touched; on success the servo is attached
and driven to `currentServoAngle` (90), the MAC is printed, and
`SerialBT.begin` either fails (logged, process continues) or starts
waiting for a connection. -/
def setup (cameraErr : Option Nat) (btOk : Bool) : ProcState :=
  match cameraErr with
  | some err =>
    { mode := .halted
    , fw := { initialFw with serialLog := [.cameraInitFailed err] } }
  | none =>
    { mode := .running
    , fw := { initialFw with
              servoPos := some 90
            , serialLog := [.servoInitialized, .macReport,
                            if btOk then .btWaiting else .btInitError] } }

/-- One step of the process: in `halted` mode nothing ever changes
(no capture, no command processing, no transmission); in `running`
mode one `loop` iteration executes. -/
def step (p : ProcState) (env : CycleEnv) : ProcState :=
  match p.mode with
  | .halted => p
  | .running => { p with fw := loopCycle p.fw env }

/-- Run the process through a sequence of cycle environments. -/
def run (p : ProcState) (envs : List CycleEnv) : ProcState := envs.foldl step p

/-- The raw byte writes among a sequence of transport writes, in
order: the frame traffic, with textual acknowledgments filtered out. -/
def rawWrites (ws : List BTWrite) : List (List Nat) :=
  ws.filterMap fun w =>
    match w with
    | .raw bs => some bs
    | .text _ => none

/-- A firmware state mid-run with a given inbound queue, used to
instantiate theorems at concrete inputs. -/
def mkFw (q : List (List Char)) : FirmwareState :=
  { currentServoAngle := 90, servoPos := some 90, inbound := q, btOut := []
  , serialLog := [], delays := [] }

/-- A cycle environment with no new arrivals, used to instantiate
theorems at concrete inputs. -/
def mkEnv (cl : Bool) (cap : Option (List Nat)) : CycleEnv :=
  { hasClient := cl, arrivals := [], capture := cap }

/-- The servo-angle range invariant: `currentServoAngle` lies in
`[0, 180]`. -/
def angleInRange (s : FirmwareState) : Prop :=
  0 ≤ s.currentServoAngle ∧ s.currentServoAngle ≤ 180

theorem processCommands_nil (s : FirmwareState) (h : s.inbound = []) :
    processCommands s = s := by
  unfold processCommands
  rw [h]

theorem processCommands_setAngle (s : FirmwareState) (line : List Char)
    (rest : List (List Char)) (hq : s.inbound = line :: rest)
    (hpre : startsWithC cmdTag (trimC line) = true) :
    processCommands s =
      { s with inbound := rest
             , servoPos := some (constrain (atol ((trimC line).drop 4)) 0 180)
             , currentServoAngle := constrain (atol ((trimC line).drop 4)) 0 180
             , serialLog := s.serialLog
                 ++ [.servoSet (constrain (atol ((trimC line).drop 4)) 0 180)]
             , btOut := s.btOut
                 ++ [.text ackHead,
                     .text (intRepr (constrain (atol ((trimC line).drop 4)) 0 180) ++ crlf)] } := by
  unfold processCommands
  rw [hq]
  simp [hpre]

theorem processCommands_unknown (s : FirmwareState) (line : List Char)
    (rest : List (List Char)) (hq : s.inbound = line :: rest)
    (hpre : startsWithC cmdTag (trimC line) = false) :
    processCommands s =
      { s with inbound := rest
             , serialLog := s.serialLog ++ [.unknownCommand (trimC line)] } := by
  unfold processCommands
  rw [hq]
  simp [hpre]

theorem processCommands_inbound (s : FirmwareState) :
    (processCommands s).inbound = s.inbound.drop 1 := by
  rcases hq : s.inbound with _ | ⟨line, rest⟩
  · rw [processCommands_nil s hq, hq]
    rfl
  · by_cases hpre : startsWithC cmdTag (trimC line) = true
    · rw [processCommands_setAngle s line rest hq hpre]
      rfl
    · rw [processCommands_unknown s line rest hq (by simpa using hpre)]
      rfl

theorem processCommands_delays (s : FirmwareState) :
    (processCommands s).delays = s.delays := by
  rcases hq : s.inbound with _ | ⟨line, rest⟩
  · rw [processCommands_nil s hq]
  · by_cases hpre : startsWithC cmdTag (trimC line) = true
    · rw [processCommands_setAngle s line rest hq hpre]
    · rw [processCommands_unknown s line rest hq (by simpa using hpre)]

theorem rawWrites_append (a b : List BTWrite) :
    rawWrites (a ++ b) = rawWrites a ++ rawWrites b := by
  simp [rawWrites, List.filterMap_append]

theorem processCommands_rawWrites (s : FirmwareState) :
    rawWrites (processCommands s).btOut = rawWrites s.btOut := by
  rcases hq : s.inbound with _ | ⟨line, rest⟩
  · rw [processCommands_nil s hq]
  · by_cases hpre : startsWithC cmdTag (trimC line) = true
    · rw [processCommands_setAngle s line rest hq hpre]
      simp [rawWrites_append, rawWrites]
    · rw [processCommands_unknown s line rest hq (by simpa using hpre)]

theorem constrain_mem (x : Int) : 0 ≤ constrain x 0 180 ∧ constrain x 0 180 ≤ 180 := by
  unfold constrain
  split_ifs <;> omega

theorem constrain_eq_clamp (x : Int) : constrain x 0 180 = max 0 (min x 180) := by
  unfold constrain
  split_ifs <;> omega

theorem processCommands_angleInRange (s : FirmwareState) (h : angleInRange s) :
    angleInRange (processCommands s) := by
  rcases hq : s.inbound with _ | ⟨line, rest⟩
  · rwa [processCommands_nil s hq]
  · by_cases hpre : startsWithC cmdTag (trimC line) = true
    · rw [processCommands_setAngle s line rest hq hpre]
      exact constrain_mem _
    · rw [processCommands_unknown s line rest hq (by simpa using hpre)]
      exact h

theorem loopCycle_idle (s : FirmwareState) (env : CycleEnv)
    (h : env.hasClient = false) :
    loopCycle s env =
      { s with inbound := s.inbound ++ env.arrivals
             , serialLog := s.serialLog ++ [.noClient]
             , delays := s.delays ++ [500] } := by
  unfold loopCycle
  simp [h]

theorem loopCycle_captureFail (s : FirmwareState) (env : CycleEnv)
    (hc : env.hasClient = true) (hcap : env.capture = none) :
    loopCycle s env =
      { processCommands { s with inbound := s.inbound ++ env.arrivals } with
        serialLog := (processCommands { s with inbound := s.inbound ++ env.arrivals }).serialLog
          ++ [.captureFailed]
      , delays := (processCommands { s with inbound := s.inbound ++ env.arrivals }).delays
          ++ [1000] } := by
  unfold loopCycle
  simp [hc, hcap]

theorem loopCycle_captureOk (s : FirmwareState) (env : CycleEnv) (fb : List Nat)
    (hc : env.hasClient = true) (hcap : env.capture = some fb) :
    loopCycle s env =
      { processCommands { s with inbound := s.inbound ++ env.arrivals } with
        btOut := (processCommands { s with inbound := s.inbound ++ env.arrivals }).btOut
          ++ [.raw (le32 (fb.length % 2 ^ 32)), .raw (fb.take (fb.length % 2 ^ 32))]
      , delays := (processCommands { s with inbound := s.inbound ++ env.arrivals }).delays
          ++ [1000] } := by
  unfold loopCycle
  simp [hc, hcap]

theorem digit_not_space (c : Char) (h : isDigitC c = true) : isSpaceC c = false := by
  simp only [isDigitC, Bool.and_eq_true, decide_eq_true_eq] at h
  simp only [isSpaceC, Bool.or_eq_false_iff, Bool.and_eq_false_iff,
    decide_eq_false_iff_not]
  omega

theorem takeWhile_all_false (p : Char → Bool) (l : List Char)
    (h : ∀ c ∈ l, p c = false) : l.takeWhile p = [] := by
  cases l with
  | nil => rfl
  | cons c cs => simp [List.takeWhile_cons, h c (by simp)]

theorem takeWhile_head_false (p : Char → Bool) (l : List Char)
    (hj : ∀ c, l.head? = some c → p c = false) : l.takeWhile p = [] := by
  cases l with
  | nil => rfl
  | cons c cs => simp [List.takeWhile_cons, hj c rfl]

theorem takeWhile_all_true (p : Char → Bool) (l : List Char)
    (h : ∀ c ∈ l, p c = true) : l.takeWhile p = l := by
  induction l with
  | nil => rfl
  | cons c cs ih =>
    simp only [List.takeWhile_cons, h c (by simp), if_true]
    exact congrArg (c :: ·) (ih (fun x hx => h x (by simp [hx])))

theorem takeWhile_all_append (p : Char → Bool) (ds junk : List Char)
    (h : ∀ c ∈ ds, p c = true) (hj : ∀ c, junk.head? = some c → p c = false) :
    (ds ++ junk).takeWhile p = ds := by
  induction ds with
  | nil =>
    simp only [List.nil_append]
    exact takeWhile_head_false p junk hj
  | cons d ds ih =>
    simp only [List.cons_append, List.takeWhile_cons, h d (by simp), if_true]
    exact congrArg (d :: ·) (ih (fun x hx => h x (by simp [hx])))

theorem mem_skipSpaces (l : List Char) (c : Char) (hc : c ∈ skipSpaces l) : c ∈ l := by
  induction l with
  | nil => simpa [skipSpaces] using hc
  | cons d ds ih =>
    by_cases hd : isSpaceC d
    · rw [show skipSpaces (d :: ds) = skipSpaces ds from by simp [skipSpaces, hd]] at hc
      exact List.mem_cons_of_mem _ (ih hc)
    · rwa [show skipSpaces (d :: ds) = d :: ds from by simp [skipSpaces, hd]] at hc

theorem atolCore_cons (c : Char) (rest : List Char) :
    atolCore (c :: rest) =
      (if c.toNat = 45 then - (digitsToNat (rest.takeWhile isDigitC) : Int)
       else if c.toNat = 43 then (digitsToNat (rest.takeWhile isDigitC) : Int)
       else (digitsToNat ((c :: rest).takeWhile isDigitC) : Int)) := rfl

theorem atol_no_digit (body : List Char) (h : ∀ c ∈ body, isDigitC c = false) :
    atol body = 0 := by
  have h2 : ∀ c ∈ skipSpaces body, isDigitC c = false :=
    fun c hc => h c (mem_skipSpaces body c hc)
  unfold atol
  cases hss : skipSpaces body with
  | nil => rfl
  | cons c rest =>
    rw [hss] at h2
    have hr : rest.takeWhile isDigitC = [] :=
      takeWhile_all_false _ _ (fun x hx => h2 x (List.mem_cons_of_mem _ hx))
    have hcr : (c :: rest).takeWhile isDigitC = [] :=
      takeWhile_all_false _ _ h2
    rw [atolCore_cons]
    split_ifs <;> simp [hr, hcr, digitsToNat]

theorem skipSpaces_cons_of_digit (d : Char) (l : List Char) (hd : isDigitC d = true) :
    skipSpaces (d :: l) = d :: l := by
  simp [skipSpaces, digit_not_space d hd]

theorem digit_toNat_ne (d : Char) (hd : isDigitC d = true) :
    ¬ d.toNat = 45 ∧ ¬ d.toNat = 43 := by
  simp only [isDigitC, Bool.and_eq_true, decide_eq_true_eq] at hd
  omega

theorem atol_digits_junk (ds junk : List Char) (hne : ds ≠ [])
    (hds : ∀ c ∈ ds, isDigitC c = true)
    (hj : ∀ c, junk.head? = some c → isDigitC c = false) :
    atol (ds ++ junk) = atol ds := by
  cases ds with
  | nil => exact absurd rfl hne
  | cons d ds' =>
    have hd : isDigitC d = true := hds d (by simp)
    obtain ⟨h45, h43⟩ := digit_toNat_ne d hd
    unfold atol
    rw [show (d :: ds') ++ junk = d :: (ds' ++ junk) from rfl,
        skipSpaces_cons_of_digit d (ds' ++ junk) hd, skipSpaces_cons_of_digit d ds' hd,
        atolCore_cons, atolCore_cons, if_neg h45, if_neg h43, if_neg h45, if_neg h43]
    rw [show d :: (ds' ++ junk) = (d :: ds') ++ junk from rfl,
        takeWhile_all_append isDigitC (d :: ds') junk hds hj,
        takeWhile_all_true isDigitC (d :: ds') hds]

theorem atol_signed_junk (sgn : Char) (ds junk : List Char)
    (hsgn : sgn.toNat = 45 ∨ sgn.toNat = 43)
    (hds : ∀ c ∈ ds, isDigitC c = true)
    (hj : ∀ c, junk.head? = some c → isDigitC c = false) :
    atol (sgn :: (ds ++ junk)) = atol (sgn :: ds) := by
  have hnspace : isSpaceC sgn = false := by
    simp only [isSpaceC, Bool.or_eq_false_iff, Bool.and_eq_false_iff,
      decide_eq_false_iff_not]
    rcases hsgn with h | h <;> omega
  unfold atol
  rw [show skipSpaces (sgn :: (ds ++ junk)) = sgn :: (ds ++ junk) from by
        simp [skipSpaces, hnspace],
      show skipSpaces (sgn :: ds) = sgn :: ds from by simp [skipSpaces, hnspace],
      atolCore_cons, atolCore_cons,
      takeWhile_all_append isDigitC ds junk hds hj, takeWhile_all_true isDigitC ds hds]
  rcases hsgn with h | h <;> simp [h]

theorem startsWithC_append (p t : List Char) : startsWithC p (p ++ t) = true := by
  induction p with
  | nil => rfl
  | cons c cs ih => simp [startsWithC, ih]

theorem loopCycle_active_inbound (s : FirmwareState) (env : CycleEnv)
    (h : env.hasClient = true) :
    (loopCycle s env).inbound = (s.inbound ++ env.arrivals).drop 1 := by
  cases hcap : env.capture with
  | none =>
    rw [loopCycle_captureFail s env h hcap]
    exact processCommands_inbound _
  | some fb =>
    rw [loopCycle_captureOk s env fb h hcap]
    exact processCommands_inbound _

theorem loopCycle_active_rawWrites_ok (s : FirmwareState) (env : CycleEnv)
    (fb : List Nat) (hc : env.hasClient = true) (hcap : env.capture = some fb) :
    rawWrites (loopCycle s env).btOut
      = rawWrites s.btOut ++ [le32 (fb.length % 2 ^ 32), fb.take (fb.length % 2 ^ 32)] := by
  rw [loopCycle_captureOk s env fb hc hcap]
  show rawWrites ((processCommands _).btOut ++ _) = _
  rw [rawWrites_append, processCommands_rawWrites]
  rfl

theorem loopCycle_rawWrites_noframe (s : FirmwareState) (env : CycleEnv)
    (hno : env.hasClient = false ∨ env.capture = none) :
    rawWrites (loopCycle s env).btOut = rawWrites s.btOut := by
  rcases hno with h | h
  · rw [loopCycle_idle s env h]
  · by_cases hc : env.hasClient = true
    · rw [loopCycle_captureFail s env hc h]
      exact processCommands_rawWrites _
    · rw [loopCycle_idle s env (by simpa using hc)]

theorem loopCycle_captureFail_delays (s : FirmwareState) (env : CycleEnv)
    (hc : env.hasClient = true) (hcap : env.capture = none) :
    (loopCycle s env).delays = s.delays ++ [1000] := by
  rw [loopCycle_captureFail s env hc hcap]
  show (processCommands _).delays ++ [1000] = s.delays ++ [1000]
  rw [processCommands_delays]

theorem step_halted (p : ProcState) (hm : p.mode = ProcMode.halted) (env : CycleEnv) :
    step p env = p := by
  unfold step
  rw [hm]

theorem run_halted (p : ProcState) (hm : p.mode = ProcMode.halted)
    (envs : List CycleEnv) : run p envs = p := by
  induction envs generalizing p with
  | nil => rfl
  | cons e es ih =>
    show run (step p e) es = p
    rw [step_halted p hm e]
    exact ih p hm

theorem loopCycle_angleInRange (s : FirmwareState) (env : CycleEnv)
    (h : angleInRange s) : angleInRange (loopCycle s env) := by
  by_cases hc : env.hasClient = true
  · cases hcap : env.capture with
    | none =>
      rw [loopCycle_captureFail s env hc hcap]
      exact processCommands_angleInRange _ h
    | some fb =>
      rw [loopCycle_captureOk s env fb hc hcap]
      exact processCommands_angleInRange _ h
  · rw [loopCycle_idle s env (by simpa using hc)]
    exact h

theorem step_angleInRange (p : ProcState) (env : CycleEnv)
    (h : angleInRange p.fw) : angleInRange (step p env).fw := by
  rcases p with ⟨mode, fw⟩
  cases mode with
  | halted => exact h
  | running => exact loopCycle_angleInRange fw env h

theorem run_angleInRange (p : ProcState) (h : angleInRange p.fw)
    (envs : List CycleEnv) : angleInRange (run p envs).fw := by
  induction envs generalizing p with
  | nil => exact h
  | cons e es ih =>
    show angleInRange (run (step p e) es).fw
    exact ih (step p e) (step_angleInRange p e h)

/-- Claim C1, as stated, is false: the command phase of an Active cycle
is a single `if (SerialBT.available())`, not a drain loop, so with two
lines queued one line is still buffered when frame capture starts, and
it is still buffered when the cycle ends. -/
theorem c1_counterexample :
    (processCommands (mkFw ["S14:10".toList, "S14:20".toList])).inbound ≠ [] ∧
    (loopCycle (mkFw ["S14:10".toList, "S14:20".toList])
        (mkEnv true (some [1, 2]))).inbound ≠ [] := by
  decide

/-- Claim C1 (amended): on every Active cycle (a peer is attached), the
orchestrator performs one non-blocking availability check and processes
at most one buffered line before capturing a frame: the inbound queue
after the cycle is the buffered queue minus exactly its first line, and
any further queued lines remain buffered for later cycles. -/
theorem c1_single_line_per_cycle (s : FirmwareState) (env : CycleEnv)
    (h : env.hasClient = true) :
    (loopCycle s env).inbound = (s.inbound ++ env.arrivals).drop 1 :=
  loopCycle_active_inbound s env h

/-- Witness for C1 (amended) at a concrete two-line queue. -/
theorem c1_single_line_witness :
    (loopCycle (mkFw ["S14:10".toList, "S14:20".toList]) (mkEnv true none)).inbound
      = ((mkFw ["S14:10".toList, "S14:20".toList]).inbound
          ++ (mkEnv true none).arrivals).drop 1 :=
  c1_single_line_per_cycle (mkFw ["S14:10".toList, "S14:20".toList])
    (mkEnv true none) rfl

/-- Claim C2: a recognized set-angle line with target `t` leaves
`currentServoAngle` (and the physical servo) at `clamp(t, 0, 180)` =
`max 0 (min t 180)`, never rejecting an out-of-range target, and the
transport receives the acknowledgment `Servo set to <angle>` carrying
the clamped applied angle. -/
theorem c2_setAngle_clamps_and_acks (s : FirmwareState) (line : List Char)
    (rest : List (List Char)) (t : Int) (hq : s.inbound = line :: rest)
    (hpre : startsWithC cmdTag (trimC line) = true)
    (ht : atol ((trimC line).drop 4) = t) :
    (processCommands s).currentServoAngle = max 0 (min t 180) ∧
    (processCommands s).servoPos = some (max 0 (min t 180)) ∧
    (processCommands s).btOut
      = s.btOut ++ [.text ackHead, .text (intRepr (max 0 (min t 180)) ++ crlf)] := by
  rw [processCommands_setAngle s line rest hq hpre, ht, constrain_eq_clamp]
  exact ⟨rfl, rfl, rfl⟩

/-- Witness for C2 at the boundary lines `"S14:181"` (applied angle 180)
and `"S14:-5"` (applied angle 0). -/
theorem c2_witness :
    (processCommands (mkFw ["S14:181".toList])).currentServoAngle = 180 ∧
    (processCommands (mkFw ["S14:181".toList])).btOut
      = [.text ackHead, .text (intRepr 180 ++ crlf)] ∧
    (processCommands (mkFw ["S14:-5".toList])).currentServoAngle = 0 := by
  have h1 := c2_setAngle_clamps_and_acks (mkFw ["S14:181".toList])
    ("S14:181".toList) [] 181 rfl (by decide) (by decide)
  have h2 := c2_setAngle_clamps_and_acks (mkFw ["S14:-5".toList])
    ("S14:-5".toList) [] (-5) rfl (by decide) (by decide)
  refine ⟨?_, ?_, ?_⟩
  · rw [h1.1]; decide
  · rw [h1.2.2]; decide
  · rw [h2.1]; decide

/-- Claim C6: an inbound line whose trimmed text does not carry the
`"S14:"` tag is only logged (with the line), no acknowledgment is
written on the transport, the servo state is unchanged, and the rest of
the queue stays available for the following cycles. -/
theorem c6_unrecognized_line (s : FirmwareState) (line : List Char)
    (rest : List (List Char)) (hq : s.inbound = line :: rest)
    (hpre : startsWithC cmdTag (trimC line) = false) :
    (processCommands s).currentServoAngle = s.currentServoAngle ∧
    (processCommands s).servoPos = s.servoPos ∧
    (processCommands s).btOut = s.btOut ∧
    (processCommands s).serialLog
      = s.serialLog ++ [LogEvent.unknownCommand (trimC line)] ∧
    (processCommands s).inbound = rest := by
  rw [processCommands_unknown s line rest hq hpre]
  exact ⟨rfl, rfl, rfl, rfl, rfl⟩

/-- Witness for C6 at the concrete unrecognized line `"hello"`. -/
theorem c6_witness :
    (processCommands (mkFw ["hello".toList, "S14:30".toList])).currentServoAngle
      = (mkFw ["hello".toList, "S14:30".toList]).currentServoAngle ∧
    (processCommands (mkFw ["hello".toList, "S14:30".toList])).servoPos
      = (mkFw ["hello".toList, "S14:30".toList]).servoPos ∧
    (processCommands (mkFw ["hello".toList, "S14:30".toList])).btOut
      = (mkFw ["hello".toList, "S14:30".toList]).btOut ∧
    (processCommands (mkFw ["hello".toList, "S14:30".toList])).serialLog
      = (mkFw ["hello".toList, "S14:30".toList]).serialLog
        ++ [LogEvent.unknownCommand (trimC ("hello".toList))] ∧
    (processCommands (mkFw ["hello".toList, "S14:30".toList])).inbound
      = ["S14:30".toList] :=
  c6_unrecognized_line (mkFw ["hello".toList, "S14:30".toList]) ("hello".toList)
    ["S14:30".toList] rfl (by decide)

/-- Claim C3: for a captured payload of `N` bytes (`N` within the 32-bit
range of `fb->len`), the frame traffic emitted on the transport for that
cycle is exactly the 4-byte little-endian length header followed by the
`N` payload bytes — `4 + N` bytes in all — and decoding the first 4
bytes with the same endianness yields `N`. -/
theorem c3_frame_framing (s : FirmwareState) (env : CycleEnv) (fb : List Nat)
    (hc : env.hasClient = true) (hcap : env.capture = some fb)
    (hlen : fb.length < 2 ^ 32) :
    rawWrites (loopCycle s env).btOut = rawWrites s.btOut ++ [le32 fb.length, fb] ∧
    (le32 fb.length ++ fb).length = 4 + fb.length ∧
    decodeLe32 (le32 fb.length ++ fb) = fb.length := by
  have hmod : fb.length % 2 ^ 32 = fb.length := Nat.mod_eq_of_lt hlen
  refine ⟨?_, by simp [le32]; omega, ?_⟩
  · rw [loopCycle_active_rawWrites_ok s env fb hc hcap, hmod, List.take_length]
  · simp only [le32, decodeLe32, List.cons_append]
    omega

/-- Witness for C3 at the concrete 3-byte payload `[7, 8, 9]`. -/
theorem c3_witness :
    rawWrites (loopCycle (mkFw []) (mkEnv true (some [7, 8, 9]))).btOut
      = rawWrites (mkFw []).btOut ++ [le32 3, [7, 8, 9]] ∧
    (le32 3 ++ [7, 8, 9]).length = 4 + 3 ∧
    decodeLe32 (le32 3 ++ [7, 8, 9]) = 3 := by
  have h := c3_frame_framing (mkFw []) (mkEnv true (some [7, 8, 9])) [7, 8, 9]
    rfl rfl (by decide)
  simpa using h

/-- Claim C4: on a cycle with no peer attached the firmware transmits
nothing — the transport write sequence is unchanged, so neither frame
bytes nor acknowledgment text is sent — no buffered line is consumed or
dispatched (arrivals are only buffered) and the servo is untouched;
once a peer is attached, the next cycle again consumes a buffered line
and, when capture succeeds, emits the framed payload. -/
theorem c4_idle_transmits_nothing (s : FirmwareState) (env env2 : CycleEnv)
    (fb : List Nat) (h : env.hasClient = false) :
    ((loopCycle s env).btOut = s.btOut ∧
     (loopCycle s env).inbound = s.inbound ++ env.arrivals ∧
     (loopCycle s env).currentServoAngle = s.currentServoAngle ∧
     (loopCycle s env).servoPos = s.servoPos) ∧
    (env2.hasClient = true → env2.capture = some fb →
      (loopCycle (loopCycle s env) env2).inbound
        = ((s.inbound ++ env.arrivals) ++ env2.arrivals).drop 1 ∧
      rawWrites (loopCycle (loopCycle s env) env2).btOut
        = rawWrites s.btOut
            ++ [le32 (fb.length % 2 ^ 32), fb.take (fb.length % 2 ^ 32)]) := by
  have hidle := loopCycle_idle s env h
  refine ⟨by rw [hidle]; exact ⟨rfl, rfl, rfl, rfl⟩, ?_⟩
  intro h2 hcap
  constructor
  · rw [loopCycle_active_inbound _ env2 h2, hidle]
  · rw [loopCycle_active_rawWrites_ok _ env2 fb h2 hcap, hidle]

/-- Witness for C4: an idle cycle with a queued command and an arriving
line, followed by an attached cycle with a successful capture. -/
theorem c4_witness :
    ((loopCycle (mkFw ["S14:70".toList]) (mkEnv false none)).btOut
        = (mkFw ["S14:70".toList]).btOut ∧
     (loopCycle (mkFw ["S14:70".toList]) (mkEnv false none)).inbound
        = (mkFw ["S14:70".toList]).inbound ++ (mkEnv false none).arrivals ∧
     (loopCycle (mkFw ["S14:70".toList]) (mkEnv false none)).currentServoAngle
        = (mkFw ["S14:70".toList]).currentServoAngle ∧
     (loopCycle (mkFw ["S14:70".toList]) (mkEnv false none)).servoPos
        = (mkFw ["S14:70".toList]).servoPos) ∧
    ((mkEnv true (some [5])).hasClient = true →
      (mkEnv true (some [5])).capture = some [5] →
      (loopCycle (loopCycle (mkFw ["S14:70".toList]) (mkEnv false none))
          (mkEnv true (some [5]))).inbound
        = (((mkFw ["S14:70".toList]).inbound ++ (mkEnv false none).arrivals)
            ++ (mkEnv true (some [5])).arrivals).drop 1 ∧
      rawWrites (loopCycle (loopCycle (mkFw ["S14:70".toList]) (mkEnv false none))
          (mkEnv true (some [5]))).btOut
        = rawWrites (mkFw ["S14:70".toList]).btOut
            ++ [le32 (([5] : List Nat).length % 2 ^ 32),
                ([5] : List Nat).take (([5] : List Nat).length % 2 ^ 32)]) :=
  c4_idle_transmits_nothing (mkFw ["S14:70".toList]) (mkEnv false none)
    (mkEnv true (some [5])) [5] rfl

/-- Claim C5: with a peer attached throughout and no further arrivals,
a run in which capture fails twice then succeeds sends no frame bytes
on the two failing cycles, exactly one framed payload on the third,
applies the fixed 1000 ms delay on each failing cycle, and still runs
command processing before capture on every cycle, so the queue shrinks
by one processed line per cycle and no queued command is lost. -/
theorem c5_capture_fail_recovery (s : FirmwareState) (e1 e2 e3 : CycleEnv)
    (fb : List Nat)
    (h1c : e1.hasClient = true) (h1f : e1.capture = none) (h1a : e1.arrivals = [])
    (h2c : e2.hasClient = true) (h2f : e2.capture = none) (h2a : e2.arrivals = [])
    (h3c : e3.hasClient = true) (h3s : e3.capture = some fb) (h3a : e3.arrivals = [])
    (hlen : fb.length < 2 ^ 32) :
    rawWrites (loopCycle (loopCycle s e1) e2).btOut = rawWrites s.btOut ∧
    rawWrites (loopCycle (loopCycle (loopCycle s e1) e2) e3).btOut
      = rawWrites s.btOut ++ [le32 fb.length, fb] ∧
    (loopCycle (loopCycle (loopCycle s e1) e2) e3).inbound = s.inbound.drop 3 ∧
    (loopCycle (loopCycle s e1) e2).delays = s.delays ++ [1000, 1000] := by
  have hmod : fb.length % 2 ^ 32 = fb.length := Nat.mod_eq_of_lt hlen
  have hraw12 : rawWrites (loopCycle (loopCycle s e1) e2).btOut = rawWrites s.btOut := by
    rw [loopCycle_rawWrites_noframe _ e2 (Or.inr h2f),
        loopCycle_rawWrites_noframe s e1 (Or.inr h1f)]
  refine ⟨hraw12, ?_, ?_, ?_⟩
  · rw [loopCycle_active_rawWrites_ok _ e3 fb h3c h3s, hraw12, hmod, List.take_length]
  · rw [loopCycle_active_inbound _ e3 h3c, h3a, List.append_nil,
        loopCycle_active_inbound _ e2 h2c, h2a, List.append_nil,
        loopCycle_active_inbound s e1 h1c, h1a, List.append_nil,
        List.drop_drop, List.drop_drop]
  · rw [loopCycle_captureFail_delays _ e2 h2c h2f,
        loopCycle_captureFail_delays s e1 h1c h1f, List.append_assoc]
    rfl

/-- Witness for C5: three queued commands, capture failing twice then
producing the payload `[9, 9]`. -/
theorem c5_witness :
    rawWrites (loopCycle (loopCycle (mkFw ["S14:1".toList, "S14:2".toList, "S14:3".toList])
        (mkEnv true none)) (mkEnv true none)).btOut
      = rawWrites (mkFw ["S14:1".toList, "S14:2".toList, "S14:3".toList]).btOut ∧
    rawWrites (loopCycle (loopCycle (loopCycle
        (mkFw ["S14:1".toList, "S14:2".toList, "S14:3".toList])
        (mkEnv true none)) (mkEnv true none)) (mkEnv true (some [9, 9]))).btOut
      = rawWrites (mkFw ["S14:1".toList, "S14:2".toList, "S14:3".toList]).btOut
          ++ [le32 ([9, 9] : List Nat).length, [9, 9]] ∧
    (loopCycle (loopCycle (loopCycle
        (mkFw ["S14:1".toList, "S14:2".toList, "S14:3".toList])
        (mkEnv true none)) (mkEnv true none)) (mkEnv true (some [9, 9]))).inbound
      = (mkFw ["S14:1".toList, "S14:2".toList, "S14:3".toList]).inbound.drop 3 ∧
    (loopCycle (loopCycle (mkFw ["S14:1".toList, "S14:2".toList, "S14:3".toList])
        (mkEnv true none)) (mkEnv true none)).delays
      = (mkFw ["S14:1".toList, "S14:2".toList, "S14:3".toList]).delays
          ++ [1000, 1000] :=
  c5_capture_fail_recovery (mkFw ["S14:1".toList, "S14:2".toList, "S14:3".toList])
    (mkEnv true none) (mkEnv true none) (mkEnv true (some [9, 9])) [9, 9]
    rfl rfl rfl rfl rfl rfl rfl rfl rfl (by decide)

/-- Claim C7: integer extraction from a recognized `"S14:"` line is
permissive: trailing non-numeric characters after the leading
(optionally signed) decimal integer do not change the parsed value,
and a body containing no numeric characters at all parses to 0, which
is then applied as angle 0 rather than being rejected. -/
theorem c7_permissive_integer_extraction (ds junk body line : List Char)
    (s : FirmwareState) (rest : List (List Char))
    (hne : ds ≠ []) (hds : ∀ c ∈ ds, isDigitC c = true)
    (hj : ∀ c, junk.head? = some c → isDigitC c = false)
    (hbody : ∀ c ∈ body, isDigitC c = false)
    (hq : s.inbound = line :: rest) (hline : trimC line = cmdTag ++ body) :
    atol (ds ++ junk) = atol ds ∧
    atol ('-' :: (ds ++ junk)) = atol ('-' :: ds) ∧
    atol body = 0 ∧
    (processCommands s).currentServoAngle = 0 ∧
    (processCommands s).servoPos = some 0 := by
  have hzero : atol body = 0 := atol_no_digit body hbody
  have hpre : startsWithC cmdTag (trimC line) = true := by
    rw [hline]; exact startsWithC_append cmdTag body
  have hdrop : (trimC line).drop 4 = body := by
    rw [hline]; rfl
  refine ⟨atol_digits_junk ds junk hne hds hj,
          atol_signed_junk '-' ds junk (Or.inl rfl) hds hj, hzero, ?_, ?_⟩ <;>
    rw [processCommands_setAngle s line rest hq hpre, hdrop, hzero] <;> rfl

/-- Witness for C7: digits `"90"` with junk `"x?"`, and the fully
non-numeric body `"abc"` queued as `"S14:abc"`. -/
theorem c7_witness :
    atol ("90".toList ++ "x?".toList) = atol ("90".toList) ∧
    atol ('-' :: ("90".toList ++ "x?".toList)) = atol ('-' :: "90".toList) ∧
    atol ("abc".toList) = 0 ∧
    (processCommands (mkFw ["S14:abc".toList])).currentServoAngle = 0 ∧
    (processCommands (mkFw ["S14:abc".toList])).servoPos = some 0 :=
  c7_permissive_integer_extraction ("90".toList) ("x?".toList) ("abc".toList)
    ("S14:abc".toList) (mkFw ["S14:abc".toList]) []
    (by decide) (by decide)
    (by intro c hc; simp at hc; subst hc; decide)
    (by decide) rfl (by decide)

/-- Claim C8: when `esp_camera_init` fails at process start, the
process enters the halt state with no outgoing transitions: after the
failure diagnostic is reported, no sequence of cycles ever changes the
state again — nothing is written to the transport, no line is consumed,
and the mode remains `halted` forever. -/
theorem c8_fatal_camera_halt (err : Nat) (btOk : Bool) (envs : List CycleEnv) :
    (run (setup (some err) btOk) envs).mode = ProcMode.halted ∧
    (run (setup (some err) btOk) envs).fw.btOut = [] ∧
    (run (setup (some err) btOk) envs).fw.inbound = [] ∧
    (run (setup (some err) btOk) envs).fw.serialLog
      = [LogEvent.cameraInitFailed err] ∧
    run (setup (some err) btOk) envs = setup (some err) btOk := by
  have h := run_halted (setup (some err) btOk) rfl envs
  rw [h]
  exact ⟨rfl, rfl, rfl, rfl, rfl⟩

/-- Claim C9: `currentServoAngle` lies in `[0, 180]` in every reachable
state — it starts at 90 and every mutation writes a value constrained
into the range. -/
theorem c9_angle_invariant (cameraErr : Option Nat) (btOk : Bool)
    (envs : List CycleEnv) :
    0 ≤ (run (setup cameraErr btOk) envs).fw.currentServoAngle ∧
    (run (setup cameraErr btOk) envs).fw.currentServoAngle ≤ 180 := by
  have h0 : angleInRange (setup cameraErr btOk).fw := by
    cases cameraErr <;>
      exact ⟨by change (0 : Int) ≤ 90; norm_num, by change (90 : Int) ≤ 180; norm_num⟩
  exact run_angleInRange (setup cameraErr btOk) h0 envs

/-- Claim C10: command recognition is an exact case-sensitive match of
the four characters `"S14:"` at the front of the trimmed line: any line
whose trimmed text does not begin with exactly those characters causes
no actuation and no acknowledgment and lands in the unrecognized-line
branch, and in particular `"s14:90"` and `"S 14:90"` fail the match. -/
theorem c10_case_sensitive_tag (s : FirmwareState) (line : List Char)
    (rest : List (List Char)) (hq : s.inbound = line :: rest)
    (hpre : startsWithC cmdTag (trimC line) = false) :
    ((processCommands s).currentServoAngle = s.currentServoAngle ∧
     (processCommands s).servoPos = s.servoPos ∧
     (processCommands s).btOut = s.btOut ∧
     (processCommands s).serialLog
       = s.serialLog ++ [LogEvent.unknownCommand (trimC line)]) ∧
    startsWithC cmdTag (trimC ("s14:90".toList)) = false ∧
    startsWithC cmdTag (trimC ("S 14:90".toList)) = false := by
  rw [processCommands_unknown s line rest hq hpre]
  exact ⟨⟨rfl, rfl, rfl, rfl⟩, by decide, by decide⟩

/-- Witness for C10 at the concrete lowercase line `"s14:90"`. -/
theorem c10_witness :
    (((processCommands (mkFw ["s14:90".toList])).currentServoAngle
        = (mkFw ["s14:90".toList]).currentServoAngle ∧
      (processCommands (mkFw ["s14:90".toList])).servoPos
        = (mkFw ["s14:90".toList]).servoPos ∧
      (processCommands (mkFw ["s14:90".toList])).btOut
        = (mkFw ["s14:90".toList]).btOut ∧
      (processCommands (mkFw ["s14:90".toList])).serialLog
        = (mkFw ["s14:90".toList]).serialLog
            ++ [LogEvent.unknownCommand (trimC ("s14:90".toList))]) ∧
     startsWithC cmdTag (trimC ("s14:90".toList)) = false ∧
     startsWithC cmdTag (trimC ("S 14:90".toList)) = false) :=
  c10_case_sensitive_tag (mkFw ["s14:90".toList]) ("s14:90".toList) [] rfl
    (by decide)
